import Mathlib

/-! Battlescape pathfinding: direction tables, direction/vector conversion, path queue.

A shallow embedding of `src/Battlescape/Pathfinding.h` (OpenXcom Extended).

* `Position` is the integer triple used as a tile coordinate and as a vector.
* `dir_x`, `dir_y`, `dir_z` are the three static lookup tables, `dir_max` their
  declared length.
* `directionToVector` and `vectorToDirection` are the two inline conversion
  functions of the header.
* `DEFAULT_MOVE_COST`, `MAX_MOVE_COST`, `INVALID_MOVE_COST`,
  `FIRE_PREVIEW_MOVE_COST`, `DIR_UP`, `DIR_DOWN` are the class constants.
* `dequeuePath`, `abortPath`, `getPath` are only declared in the header; their
  bodies live in a translation unit that is not part of the sources at hand and
  are modelled from the written specification.
-/

namespace OpenXcom

/-- A tile coordinate, also used as a displacement vector (`Position.h`):
three signed integers. No arithmetic is performed on the components by the
functions embedded here, so they are kept as unbounded integers. -/
structure Position where
  x : Int
  y : Int
  z : Int
deriving DecidableEq

namespace Pathfinding

/-- Declared length of the direction tables: `constexpr static int dir_max = 10;` -/
def dir_max : Nat := 10

/-- Table of x offsets: `constexpr static int dir_x[dir_max] = {  0, +1, +1, +1,  0, -1, -1, -1,  0,  0};` -/
def dir_x : List Int := [0, 1, 1, 1, 0, -1, -1, -1, 0, 0]

/-- Table of y offsets: `constexpr static int dir_y[dir_max] = { -1, -1,  0, +1, +1, +1,  0, -1,  0,  0};` -/
def dir_y : List Int := [-1, -1, 0, 1, 1, 1, 0, -1, 0, 0]

/-- Table of z offsets: `constexpr static int dir_z[dir_max] = {  0,  0,  0,  0,  0,  0,  0,  0, +1, -1};` -/
def dir_z : List Int := [0, 0, 0, 0, 0, 0, 0, 0, 1, -1]

/-- Default move cost for a tile whose floor has cost 0: `static constexpr int DEFAULT_MOVE_COST = 4;` -/
def DEFAULT_MOVE_COST : Int := 4

/-- How many time units one move can have: `static constexpr int MAX_MOVE_COST = 100;` -/
def MAX_MOVE_COST : Int := 100

/-- Fake cost representing an invalid move: `static constexpr int INVALID_MOVE_COST = 255;` -/
def INVALID_MOVE_COST : Int := 255

/-- Fire penalty used in path search: `static constexpr int FIRE_PREVIEW_MOVE_COST = 32;` -/
def FIRE_PREVIEW_MOVE_COST : Int := 32

/-- Direction code for up: `static const int DIR_UP = 8;` -/
def DIR_UP : Int := 8

/-- Direction code for down: `static const int DIR_DOWN = 9;` -/
def DIR_DOWN : Int := 9

/-- The subscript expression `t[i]` on a built-in array with a signed index:
the element when `0 ≤ i < length`, and no value otherwise (an out-of-bounds
read has no defined result in the source language). -/
def tableAt (t : List Int) (i : Int) : Option Int :=
  if 0 ≤ i then t[i.toNat]? else none

/-- The function `directionToVector(int direction, Position *vector)`: the three table
reads `dir_x[direction]`, `dir_y[direction]`, `dir_z[direction]`, stored into
the output position. The written position is returned; the result is `none`
when a read is outside its table. -/
def directionToVector (direction : Int) : Option Position := do
  let vx ← tableAt dir_x direction
  let vy ← tableAt dir_y direction
  let vz ← tableAt dir_z direction
  pure ⟨vx, vy, vz⟩

/-- The body of `for (int i = 0; i < 8; ++i)` in `vectorToDirection`, started
at index `i` with `n` iterations left (`n = 8 - i`): the first index whose
`dir_x`/`dir_y` entries equal the vector's `x`/`y` is returned, and `-1` once
the loop runs out. -/
def vectorToDirectionLoop (vector : Position) : Nat → Int → Int
  | 0, _ => -1
  | n + 1, i =>
    if tableAt dir_x i = some vector.x ∧ tableAt dir_y i = some vector.y then i
    else vectorToDirectionLoop vector n (i + 1)

/-- The function `vectorToDirection(Position vector)`: the loop over `i = 0 .. 7`. -/
def vectorToDirection (vector : Position) : Int :=
  vectorToDirectionLoop vector 8 0

/-- Component-wise negation of a vector. -/
def negate (v : Position) : Position := ⟨-v.x, -v.y, -v.z⟩

/-! ### Path queue

The header declares `std::vector<int> _path`, `bool _pathPreviewed`,
`int dequeuePath()`, `void abortPath()` and
`const std::vector<int> &getPath() const`; the bodies of the three member
functions are not in the header. -/

/-- The part of the engine state the path-queue operations read or write:
the stored direction sequence and the preview flag. -/
structure PathState where
  /-- The member `std::vector<int> _path`, in storage order. -/
  _path : List Int
  /-- The member `bool _pathPreviewed`. -/
  _pathPreviewed : Bool
deriving DecidableEq

/-- Modelled from the spec: the body of `Pathfinding::dequeuePath` is missing
from the sources. The specification stores the path "as a reversed sequence of
direction codes (destination→origin internally, consumed origin→destination)"
and describes `dequeuePath` as "pop front, −1 if empty", an empty path being
"a no-op returning a sentinel". The front of the path in travel order is the
last stored element: it is removed and returned; on an empty path the state is
unchanged and `-1` is returned. -/
def dequeuePath (s : PathState) : Int × PathState :=
  match s._path.getLast? with
  | none => (-1, s)
  | some d => (d, { s with _path := s._path.dropLast })

/-- Modelled from the spec: the body of `Pathfinding::abortPath` is missing
from the sources. The specification describes it as "clear path and preview". -/
def abortPath (s : PathState) : PathState :=
  { s with _path := [], _pathPreviewed := false }

/-- Modelled from the spec: the body of `Pathfinding::getPath` is missing from
the sources. The specification lists it as a snapshot accessor of the path; the
declaration returns a reference to the stored vector. -/
def getPath (s : PathState) : List Int := s._path

/-- The state after `n` consecutive calls of `dequeuePath`, results discarded. -/
def dequeuePathTimes : Nat → PathState → PathState
  | 0, s => s
  | n + 1, s => dequeuePathTimes n (dequeuePath s).2

/-! ### Auxiliary facts -/

theorem dir_tables_length :
    dir_x.length = dir_max ∧ dir_y.length = dir_max ∧ dir_z.length = dir_max := by
  decide

/-- The loop of `vectorToDirection` written out as the eight comparisons it
performs, in order. -/
theorem vectorToDirection_unfold (v : Position) :
    vectorToDirection v =
      if v.x = 0 ∧ v.y = -1 then 0
      else if v.x = 1 ∧ v.y = -1 then 1
      else if v.x = 1 ∧ v.y = 0 then 2
      else if v.x = 1 ∧ v.y = 1 then 3
      else if v.x = 0 ∧ v.y = 1 then 4
      else if v.x = -1 ∧ v.y = 1 then 5
      else if v.x = -1 ∧ v.y = 0 then 6
      else if v.x = -1 ∧ v.y = -1 then 7
      else -1 := by
  simp [vectorToDirection, vectorToDirectionLoop, tableAt, dir_x, dir_y, eq_comm]

/-- Every table read made by the loop of `vectorToDirection` is in bounds. -/
theorem vectorToDirection_reads_in_bounds (i : Int) (h0 : 0 ≤ i) (h8 : i < 8) :
    (tableAt dir_x i).isSome = true ∧ (tableAt dir_y i).isSome = true := by
  interval_cases i <;> decide

/-- The condition `max |x| |y| = 1` spelled out on integers. -/
theorem chebyshev_one_iff (x y : Int) :
    max |x| |y| = 1 ↔
      (x = -1 ∨ x = 0 ∨ x = 1) ∧ (y = -1 ∨ y = 0 ∨ y = 1) ∧ (x ≠ 0 ∨ y ≠ 0) := by
  rcases abs_cases x with ⟨hx, _⟩ | ⟨hx, _⟩ <;>
  rcases abs_cases y with ⟨hy, _⟩ | ⟨hy, _⟩ <;>
  rw [hx, hy] <;> rcases max_cases x y with ⟨h, _⟩ | ⟨h, _⟩ <;> omega

theorem vectorToDirection_of_x_out (v : Position) (h : v.x < -1 ∨ 1 < v.x) :
    vectorToDirection v = -1 := by
  have h0 : v.x ≠ 0 := by omega
  have h1 : v.x ≠ 1 := by omega
  have h2 : v.x ≠ -1 := by omega
  rw [vectorToDirection_unfold]
  simp [h0, h1, h2]

theorem vectorToDirection_of_y_out (v : Position) (h : v.y < -1 ∨ 1 < v.y) :
    vectorToDirection v = -1 := by
  have h0 : v.y ≠ 0 := by omega
  have h1 : v.y ≠ 1 := by omega
  have h2 : v.y ≠ -1 := by omega
  rw [vectorToDirection_unfold]
  simp [h0, h1, h2]

theorem vectorToDirection_of_zero (z : Int) : vectorToDirection ⟨0, 0, z⟩ = -1 := by
  rw [vectorToDirection_unfold]; simp

/-- On a horizontal unit offset the loop finds an index in 0..7 whose table
entries are that offset. -/
theorem vectorToDirection_of_unit (v : Position) (h : max |v.x| |v.y| = 1) :
    0 ≤ vectorToDirection v ∧ vectorToDirection v ≤ 7 ∧
      directionToVector (vectorToDirection v) = some ⟨v.x, v.y, 0⟩ := by
  obtain ⟨x, y, z⟩ := v
  rw [chebyshev_one_iff] at h
  obtain ⟨hx, hy, hxy⟩ := h
  simp only at hx hy hxy
  rcases hx with rfl | rfl | rfl <;> rcases hy with rfl | rfl | rfl <;>
    first
    | exact absurd hxy (by decide)
    | simp [vectorToDirection_unfold, directionToVector, tableAt, dir_x, dir_y, dir_z]

/-- Off the horizontal unit offsets every comparison of the loop fails. -/
theorem vectorToDirection_of_not_unit (v : Position) (h : max |v.x| |v.y| ≠ 1) :
    vectorToDirection v = -1 := by
  rw [Ne, chebyshev_one_iff] at h
  by_cases hx : v.x < -1 ∨ 1 < v.x
  · exact vectorToDirection_of_x_out v hx
  by_cases hy : v.y < -1 ∨ 1 < v.y
  · exact vectorToDirection_of_y_out v hy
  have hx0 : v.x = 0 := by omega
  have hy0 : v.y = 0 := by omega
  obtain ⟨x, y, z⟩ := v
  simp only at hx0 hy0
  subst hx0 hy0
  exact vectorToDirection_of_zero z

/-- The function `directionToVector` yields a vector exactly on the indices 0..9 of the
tables. -/
theorem directionToVector_isSome_iff (i : Int) :
    (directionToVector i).isSome = true ↔ 0 ≤ i ∧ i ≤ 9 := by
  by_cases hneg : i < 0
  · have hx : tableAt dir_x i = none := by simp [tableAt, hneg]
    have hnone : directionToVector i = none := by
      simp [directionToVector, hx]
    rw [hnone]
    constructor
    · intro h; exact absurd h (by decide)
    · intro h; omega
  by_cases hbig : 9 < i
  · have hlen : dir_x.length ≤ i.toNat := by
      have : dir_x.length = 10 := by decide
      omega
    have hx : tableAt dir_x i = none := by
      simp [tableAt, List.getElem?_eq_none hlen]
    have hnone : directionToVector i = none := by
      simp [directionToVector, hx]
    rw [hnone]
    constructor
    · intro h; exact absurd h (by decide)
    · intro h; omega
  have h0 : 0 ≤ i := by omega
  have h9 : i ≤ 9 := by omega
  constructor
  · intro _; exact ⟨h0, h9⟩
  · intro _; interval_cases i <;> decide

theorem dequeuePath_length (s : PathState) :
    (dequeuePath s).2._path.length = s._path.length - 1 := by
  unfold dequeuePath
  cases h : s._path.getLast? with
  | none =>
    have : s._path = [] := by simpa using h
    simp [this]
  | some d => simp

theorem dequeuePathTimes_length (n : Nat) (s : PathState) :
    (dequeuePathTimes n s)._path.length = s._path.length - n := by
  induction n generalizing s with
  | zero => simp [dequeuePathTimes]
  | succ n ih =>
    simp only [dequeuePathTimes]
    rw [ih, dequeuePath_length]
    omega

theorem dequeuePath_empty (s : PathState) (h : s._path = []) :
    dequeuePath s = (-1, s) := by
  simp [dequeuePath, h]

/-! ### Direction tables and conversions -/

/-- C1: for every direction code `d` with `0 ≤ d ≤ 7`, `directionToVector d`
produces a vector and `vectorToDirection` of that vector is `d` again. -/
theorem vectorToDirection_directionToVector (d : Int) (h0 : 0 ≤ d) (h7 : d ≤ 7) :
    ∃ v, directionToVector d = some v ∧ vectorToDirection v = d := by
  interval_cases d <;> exact ⟨_, rfl, by decide⟩

theorem vectorToDirection_directionToVector_witness :
    (0 : Int) ≤ 5 ∧ (5 : Int) ≤ 7 ∧
      ∃ v, directionToVector 5 = some v ∧ vectorToDirection v = 5 :=
  ⟨by decide, by decide, vectorToDirection_directionToVector 5 (by decide) (by decide)⟩

/-- C2: directions 0..7 are the eight compass directions, clockwise from
north. Direction 0 is `(0,-1,0)`, 2 is `(+1,0,0)`, 4 is `(0,+1,0)`, 6 is
`(-1,0,0)`; for `d`, `e` in 0..7 the horizontal offset of `d` is non-zero with
both components in `{-1,0,1}`, differs from the offset of `e` whenever
`d ≠ e`, and the offset of `(d+1) mod 8` is the next neighbour clockwise
(positive cross product in the y-grows-south orientation); every horizontal
neighbour offset is the offset of some direction in 0..7. -/
theorem compass_directions_clockwise (d e : Int)
    (hd0 : 0 ≤ d) (hd7 : d ≤ 7) (he0 : 0 ≤ e) (he7 : e ≤ 7) :
    directionToVector 0 = some ⟨0, -1, 0⟩ ∧
    directionToVector 2 = some ⟨1, 0, 0⟩ ∧
    directionToVector 4 = some ⟨0, 1, 0⟩ ∧
    directionToVector 6 = some ⟨-1, 0, 0⟩ ∧
    (∃ v w u, directionToVector d = some v ∧
        directionToVector ((d + 1) % 8) = some w ∧
        directionToVector e = some u ∧
        (v.x ≠ 0 ∨ v.y ≠ 0) ∧
        (v.x = -1 ∨ v.x = 0 ∨ v.x = 1) ∧
        (v.y = -1 ∨ v.y = 0 ∨ v.y = 1) ∧
        0 < v.x * w.y - v.y * w.x ∧
        (d ≠ e → (v.x, v.y) ≠ (u.x, u.y))) ∧
    (∀ x y : Int, max |x| |y| = 1 →
        ∃ k, 0 ≤ k ∧ k ≤ 7 ∧ directionToVector k = some ⟨x, y, 0⟩) := by
  refine ⟨by decide, by decide, by decide, by decide, ?_, ?_⟩
  · interval_cases d <;> interval_cases e <;>
      exact ⟨_, _, _, rfl, rfl, rfl, by decide⟩
  · intro x y h
    rw [chebyshev_one_iff] at h
    obtain ⟨hx, hy, hxy⟩ := h
    rcases hx with rfl | rfl | rfl <;> rcases hy with rfl | rfl | rfl
    · exact ⟨7, by decide⟩
    · exact ⟨6, by decide⟩
    · exact ⟨5, by decide⟩
    · exact ⟨0, by decide⟩
    · exact absurd hxy (by decide)
    · exact ⟨4, by decide⟩
    · exact ⟨1, by decide⟩
    · exact ⟨2, by decide⟩
    · exact ⟨3, by decide⟩

theorem compass_directions_clockwise_witness :
    ∃ v w u, directionToVector 7 = some v ∧
      directionToVector ((7 + 1) % 8) = some w ∧
      directionToVector 3 = some u ∧
      (v.x ≠ 0 ∨ v.y ≠ 0) ∧
      (v.x = -1 ∨ v.x = 0 ∨ v.x = 1) ∧
      (v.y = -1 ∨ v.y = 0 ∨ v.y = 1) ∧
      0 < v.x * w.y - v.y * w.x ∧
      ((7 : Int) ≠ 3 → (v.x, v.y) ≠ (u.x, u.y)) :=
  (compass_directions_clockwise 7 3 (by decide) (by decide) (by decide) (by decide)).2.2.2.2.1

/-- C3: direction 8 (`DIR_UP`) is `(0,0,+1)` and direction 9 (`DIR_DOWN`) is
`(0,0,-1)`; for every direction `d` in 0..9 the vector exists, has `z = 0`
when `d ≤ 7`, and has `z ≠ 0` exactly when `d` is 8 or 9. -/
theorem vertical_directions (d : Int) (h0 : 0 ≤ d) (h9 : d ≤ 9) :
    DIR_UP = 8 ∧ DIR_DOWN = 9 ∧
    directionToVector DIR_UP = some ⟨0, 0, 1⟩ ∧
    directionToVector DIR_DOWN = some ⟨0, 0, -1⟩ ∧
    ∃ v, directionToVector d = some v ∧
      (d ≤ 7 → v.z = 0) ∧ (v.z ≠ 0 ↔ d = 8 ∨ d = 9) := by
  refine ⟨rfl, rfl, by decide, by decide, ?_⟩
  interval_cases d <;> exact ⟨_, rfl, by decide⟩

theorem vertical_directions_witness :
    (0 : Int) ≤ 8 ∧ (8 : Int) ≤ 9 ∧
    ∃ v, directionToVector 8 = some v ∧
      ((8 : Int) ≤ 7 → v.z = 0) ∧ (v.z ≠ 0 ↔ (8 : Int) = 8 ∨ (8 : Int) = 9) :=
  ⟨by decide, by decide, (vertical_directions 8 (by decide) (by decide)).2.2.2.2⟩

/-! ### Path queue operations -/

/-- C4: for every stored path of length `N`, `N` calls of `dequeuePath` leave
the path empty (and fewer calls do not), and the next call returns `-1` and
leaves the path empty. -/
theorem dequeuePath_drains (s : PathState) :
    (dequeuePathTimes s._path.length s)._path = [] ∧
    (∀ k, k < s._path.length → (dequeuePathTimes k s)._path ≠ []) ∧
    (dequeuePath (dequeuePathTimes s._path.length s)).1 = -1 ∧
    (dequeuePath (dequeuePathTimes s._path.length s)).2._path = [] := by
  have hnil : (dequeuePathTimes s._path.length s)._path = [] := by
    apply List.eq_nil_of_length_eq_zero
    rw [dequeuePathTimes_length]
    omega
  refine ⟨hnil, ?_, ?_, ?_⟩
  · intro k hk hempty
    have hlen := dequeuePathTimes_length k s
    rw [hempty] at hlen
    simp only [List.length_nil] at hlen
    omega
  · rw [dequeuePath_empty _ hnil]
  · rw [dequeuePath_empty _ hnil]
    exact hnil

/-- C5: for every engine state, `abortPath` followed by `getPath` returns the
empty sequence. -/
theorem getPath_abortPath (s : PathState) : getPath (abortPath s) = [] := by
  rfl

/-! ### Cost constants -/

/-- C6: `INVALID_MOVE_COST` is 255, `DEFAULT_MOVE_COST` is 4,
`FIRE_PREVIEW_MOVE_COST` is 32, `MAX_MOVE_COST` is 100, and every cost `c` with
`0 ≤ c ≤ MAX_MOVE_COST` differs from `INVALID_MOVE_COST`; the default cost and
the default cost plus the fire penalty (36) lie in that range and differ from
the sentinel. -/
theorem invalid_move_cost_distinct (c : Int) (h0 : 0 ≤ c) (h1 : c ≤ MAX_MOVE_COST) :
    INVALID_MOVE_COST = 255 ∧ DEFAULT_MOVE_COST = 4 ∧
    FIRE_PREVIEW_MOVE_COST = 32 ∧ MAX_MOVE_COST = 100 ∧
    c ≠ INVALID_MOVE_COST ∧
    (0 ≤ DEFAULT_MOVE_COST ∧ DEFAULT_MOVE_COST ≤ MAX_MOVE_COST ∧
      DEFAULT_MOVE_COST ≠ INVALID_MOVE_COST) ∧
    (DEFAULT_MOVE_COST + FIRE_PREVIEW_MOVE_COST = 36 ∧
      0 ≤ DEFAULT_MOVE_COST + FIRE_PREVIEW_MOVE_COST ∧
      DEFAULT_MOVE_COST + FIRE_PREVIEW_MOVE_COST ≤ MAX_MOVE_COST ∧
      DEFAULT_MOVE_COST + FIRE_PREVIEW_MOVE_COST ≠ INVALID_MOVE_COST) := by
  refine ⟨rfl, rfl, rfl, rfl, ?_, by decide, by decide⟩
  unfold MAX_MOVE_COST at h1
  unfold INVALID_MOVE_COST
  omega

theorem invalid_move_cost_distinct_witness :
    (0 : Int) ≤ 100 ∧ (100 : Int) ≤ MAX_MOVE_COST ∧ (100 : Int) ≠ INVALID_MOVE_COST :=
  ⟨by decide, by decide,
    (invalid_move_cost_distinct 100 (by decide) (by decide)).2.2.2.2.1⟩

/-! ### The `-1` sentinel of `vectorToDirection` -/

/-- C7: for every integer vector, `vectorToDirection` returns a value in 0..7
exactly when `max(|x|,|y|) = 1` and returns `-1` exactly when it is not; the
zero vector gives `-1`, and the result is never 8 (`DIR_UP`), 9 (`DIR_DOWN`) or
anything outside `{-1, 0, .., 7}`. -/
theorem vectorToDirection_sentinel (v : Position) :
    (max |v.x| |v.y| = 1 ↔ 0 ≤ vectorToDirection v ∧ vectorToDirection v ≤ 7) ∧
    (max |v.x| |v.y| ≠ 1 ↔ vectorToDirection v = -1) ∧
    vectorToDirection ⟨0, 0, v.z⟩ = -1 ∧
    vectorToDirection v ≠ DIR_UP ∧ vectorToDirection v ≠ DIR_DOWN ∧
    (vectorToDirection v = -1 ∨ (0 ≤ vectorToDirection v ∧ vectorToDirection v ≤ 7)) := by
  unfold DIR_UP DIR_DOWN
  by_cases h : max |v.x| |v.y| = 1
  · obtain ⟨h0, h7, _⟩ := vectorToDirection_of_unit v h
    refine ⟨⟨fun _ => ⟨h0, h7⟩, fun _ => h⟩, ⟨fun hn => absurd h hn, fun hr => ?_⟩,
      vectorToDirection_of_zero _, ?_, ?_, Or.inr ⟨h0, h7⟩⟩ <;> omega
  · have hr := vectorToDirection_of_not_unit v h
    refine ⟨⟨fun h1 => absurd h1 h, fun h07 => ?_⟩, ⟨fun _ => hr, fun _ => h⟩,
      vectorToDirection_of_zero _, ?_, ?_, Or.inl hr⟩ <;> omega

/-- C8: `vectorToDirection` does not depend on the `z` component; for the
vertical directions 8 and 9 the round trip through `directionToVector` gives
`-1`, not the direction. -/
theorem vectorToDirection_ignores_z (x y z z' : Int) :
    vectorToDirection ⟨x, y, z⟩ = vectorToDirection ⟨x, y, z'⟩ ∧
    (∃ u, directionToVector 8 = some u ∧ vectorToDirection u = -1 ∧
      vectorToDirection u ≠ 8) ∧
    (∃ w, directionToVector 9 = some w ∧ vectorToDirection w = -1 ∧
      vectorToDirection w ≠ 9) := by
  refine ⟨?_, ⟨_, rfl, by decide⟩, ⟨_, rfl, by decide⟩⟩
  rw [vectorToDirection_unfold, vectorToDirection_unfold]

/-- C9: if `vectorToDirection v = d` and `d ≠ -1`, then `0 ≤ d ≤ 7` and
`directionToVector d` is defined and equals `(v.x, v.y, 0)`; if `d = -1`,
`directionToVector d` reads outside the tables. The three tables have exactly
10 entries, and `directionToVector` is defined exactly on the indices 0..9. -/
theorem directionToVector_vectorToDirection (v : Position) (d : Int)
    (hd : vectorToDirection v = d) :
    (d ≠ -1 → 0 ≤ d ∧ d ≤ 7 ∧ directionToVector d = some ⟨v.x, v.y, 0⟩) ∧
    (d = -1 → directionToVector d = none) ∧
    (dir_max = 10 ∧ dir_x.length = 10 ∧ dir_y.length = 10 ∧ dir_z.length = 10) ∧
    (∀ i : Int, (directionToVector i).isSome = true ↔ 0 ≤ i ∧ i ≤ 9) := by
  subst hd
  refine ⟨fun hne => ?_, fun heq => ?_, by decide, directionToVector_isSome_iff⟩
  · by_cases h : max |v.x| |v.y| = 1
    · exact vectorToDirection_of_unit v h
    · exact absurd (vectorToDirection_of_not_unit v h) hne
  · rw [heq]; decide

theorem directionToVector_vectorToDirection_witness :
    vectorToDirection ⟨-1, 1, 3⟩ = 5 ∧
    ((5 : Int) ≠ -1 →
      (0 : Int) ≤ 5 ∧ (5 : Int) ≤ 7 ∧ directionToVector 5 = some ⟨-1, 1, 0⟩) :=
  ⟨by decide, (directionToVector_vectorToDirection ⟨-1, 1, 3⟩ 5 (by decide)).1⟩

/-- C10: for every `d` in 0..7, `directionToVector ((d+4) mod 8)` is the
component-wise negation of `directionToVector d`, and `vectorToDirection` of
that negated vector is `(d+4) mod 8`; `directionToVector 9` is the negation of
`directionToVector 8`. -/
theorem opposite_directions (d : Int) (h0 : 0 ≤ d) (h7 : d ≤ 7) :
    (∃ v, directionToVector d = some v ∧
      directionToVector ((d + 4) % 8) = some (negate v) ∧
      vectorToDirection (negate v) = (d + 4) % 8) ∧
    (∃ u, directionToVector 8 = some u ∧ directionToVector 9 = some (negate u)) := by
  refine ⟨?_, ⟨_, rfl, by decide⟩⟩
  interval_cases d <;> exact ⟨_, rfl, by decide⟩

theorem opposite_directions_witness :
    (0 : Int) ≤ 6 ∧ (6 : Int) ≤ 7 ∧
    ∃ v, directionToVector 6 = some v ∧
      directionToVector ((6 + 4) % 8) = some (negate v) ∧
      vectorToDirection (negate v) = (6 + 4) % 8 :=
  ⟨by decide, by decide, (opposite_directions 6 (by decide) (by decide)).1⟩

end Pathfinding

end OpenXcom
